import Mathlib

/-
Formal model of the dataset pipeline in `lab_8_llm/main.py`: the importer,
the preprocessor (`analyze` / `transform`), the dataset adapter
(`TaskDataset`), and the single-sample inference post-processing of
`LLMPipeline.infer_sample`.

Python strings are modelled as lists of characters (`Str`); a pandas cell is
`Option Str` with `none` standing for a missing value (`pd.NA` / `NaN`); a
`DataFrame` is a `Table`: a list of column labels plus a list of rows, each
row a list of cells aligned positionally with the labels (a real `DataFrame`
is rectangular; `Table.rect` states that invariant).  Python exceptions are
modelled with `Except PyError`: an `Except.error` is an exception propagating
out of the call, an `Except.ok` is a normal return.
-/

abbrev Str := List Char

abbrev Cell := Option Str

abbrev Row := List Cell

structure Table where
  columns : List String
  rows : List Row
  deriving Repr, DecidableEq

inductive PyError where
  | typeError
  | keyError
  | indexError
  | valueError
  | runtimeError
  deriving Repr, DecidableEq

instance {ε α : Type} [DecidableEq ε] [DecidableEq α] : DecidableEq (Except ε α) :=
  fun a b =>
  match a, b with
  | .error e1, .error e2 =>
    if h : e1 = e2 then .isTrue (by rw [h])
    else .isFalse (by intro hc; injection hc; contradiction)
  | .error _, .ok _ => .isFalse (by intro hc; exact Except.noConfusion hc)
  | .ok _, .error _ => .isFalse (by intro hc; exact Except.noConfusion hc)
  | .ok a1, .ok a2 =>
    if h : a1 = a2 then .isTrue (by rw [h])
    else .isFalse (by intro hc; injection hc; contradiction)

/-- A `DataFrame` is rectangular: every row has one cell per column label. -/
def Table.rect (t : Table) : Bool :=
  t.rows.all (fun r => r.length == t.columns.length)

def colInstruction : String := "instruction"

def colInput : String := "input"

def colOutput : String := "output"

def colText : String := "text"

def colQuestion : String := "question"

def colTarget : String := "target"

/-- `replace("", pd.NA)` on one cell: an empty string becomes a missing value. -/
def replaceEmptyNA : Cell → Cell
  | none => none
  | some s => if s.isEmpty then none else some s

/-- A cell that is an empty string or already missing (exactly the cells that
`replace("", pd.NA)` turns into missing values). -/
def cellEmptyB : Cell → Bool
  | none => true
  | some s => s.isEmpty

/-- Position of the first column carrying the given label; `none` models the
`KeyError` of label-based selection `df[name]` when the label is absent. -/
def colIdx (cols : List String) (name : String) : Option Nat :=
  match cols with
  | [] => none
  | c :: cs => if c = name then some 0 else (colIdx cs name).map (· + 1)

/-- `df.duplicated().sum()`: pandas marks a row when an identical row occurred
earlier (`keep='first'`), and the sum counts the marked rows. -/
def duplicatedAux (seen : List Row) : List Row → Nat
  | [] => 0
  | r :: rs => (if r ∈ seen then 1 else 0) + duplicatedAux (r :: seen) rs

def duplicatedSum (t : Table) : Nat := duplicatedAux [] t.rows

/-- `df.replace("", pd.NA).isna().sum().sum()`: the total number of missing
cells after the replacement (summing per row yields the same total as
pandas' per-column sum). -/
def isnaSumSum (t : Table) : Nat :=
  (t.rows.map (fun r => (r.map replaceEmptyNA).countP Option.isNone)).sum

/-- `df.replace("", pd.NA).dropna()`: replace empty strings by missing values,
then keep only the rows without a missing cell.  The trailing
`.reset_index()` in the source merely prepends a positional-index column,
which the later label-based selection of the instruction column ignores, so
it is not modelled. -/
def emptyRowsFree (t : Table) : List Row :=
  (t.rows.map (fun r => r.map replaceEmptyNA)).filter (fun r => !r.any Option.isNone)

/-- The present, non-missing values found at cell position `j` of the rows. -/
def instrCells (j : Nat) (rows : List Row) : List Str :=
  rows.filterMap (fun r => r[j]?.bind id)

/-- Python `min(xs, key=len)`: the first string of minimal length, or `none`
on an empty sequence (where Python raises `ValueError`). -/
def minByLen : List Str → Option Str
  | [] => none
  | x :: xs =>
    match minByLen xs with
    | none => some x
    | some m => if m.length < x.length then some m else some x

/-- Python `max(xs, key=len)`: the first string of maximal length, or `none`
on an empty sequence (where Python raises `ValueError`). -/
def maxByLen : List Str → Option Str
  | [] => none
  | x :: xs =>
    match maxByLen xs with
    | none => some x
    | some m => if x.length < m.length then some m else some x

/-- The dictionary returned by `RawDataPreprocessor.analyze`. -/
structure AnalysisReport where
  dataset_number_of_samples : Nat
  dataset_columns : Nat
  dataset_duplicates : Nat
  dataset_empty_rows : Nat
  dataset_sample_min_len : Nat
  dataset_sample_max_len : Nat
  deriving Repr, DecidableEq

/-- `RawDataPreprocessor.analyze`, applied to the raw table: shape statistics,
duplicate count, missing-cell count, and the min/max length of the
instruction column over `empty_rows_free`.  Selecting the instruction column
raises `KeyError` when the label is absent; `min`/`max` raise `ValueError`
when `empty_rows_free` has no rows. -/
def analyze (t : Table) : Except PyError AnalysisReport :=
  match colIdx t.columns colInstruction with
  | none => .error .keyError
  | some j =>
    match minByLen (instrCells j (emptyRowsFree t)), maxByLen (instrCells j (emptyRowsFree t)) with
    | some mn, some mx =>
      .ok { dataset_number_of_samples := t.rows.length
            dataset_columns := t.columns.length
            dataset_duplicates := duplicatedSum t
            dataset_empty_rows := isnaSumSum t
            dataset_sample_min_len := mn.length
            dataset_sample_max_len := mx.length }
    | _, _ => .error .valueError

/-- `rename(columns={'instruction': 'question', 'output': 'target'})` on one
label: only matching labels change, absent labels are silently ignored. -/
def renameInstrOutput (c : String) : String :=
  if c = colInstruction then colQuestion else if c = colOutput then colTarget else c

/-- The labels passed to `.drop(columns=['input', 'text'])`. -/
def dropNames : List String := [colInput, colText]

/-- The cells of a row that survive dropping the named columns. -/
def dropCells (cols : List String) (names : List String) (r : Row) : Row :=
  (cols.zip r).filterMap (fun p => if p.1 ∈ names then none else some p.2)

/-- `df.drop(columns=names)`: removes the named columns, raising `KeyError`
(the default `errors='raise'`) when any requested label is absent. -/
def dropColumns (names : List String) (t : Table) : Except PyError Table :=
  if ∀ n ∈ names, n ∈ t.columns then
    .ok { columns := t.columns.filter (fun c => decide (c ∉ names))
          rows := t.rows.map (dropCells t.columns names) }
  else .error .keyError

/-- The table computed by `RawDataPreprocessor.transform`: rename
`instruction` to `question` and `output` to `target`, then drop the `input`
and `text` columns. -/
def transform (t : Table) : Except PyError Table :=
  dropColumns dropNames { columns := t.columns.map renameInstrOutput, rows := t.rows }

/-- State of a `RawDataPreprocessor`: the raw table `_raw_data` and the
clean table `_data` (`none` before a successful `transform`). -/
structure RawDataPreprocessor where
  raw_data : Table
  data : Option Table
  deriving Repr, DecidableEq

/-- One call of `RawDataPreprocessor.transform`: recompute the clean table
from `_raw_data` (which the call never mutates) and store it in `_data`;
an exception leaves the object unchanged and propagates. -/
def transformStep (p : RawDataPreprocessor) : Except PyError RawDataPreprocessor :=
  match transform p.raw_data with
  | .error e => .error e
  | .ok u => .ok { p with data := some u }

/-- State of a `TaskDataset`: the wrapped clean table `_data`. -/
structure TaskDataset where
  data : Table
  deriving Repr, DecidableEq

/-- `TaskDataset.__len__`: `len(self._data)`, the number of rows. -/
def TaskDataset.len (d : TaskDataset) : Nat := d.data.rows.length

/-- Positional indexing of `df.iloc[i]` over `n` rows: a Python index, so
negative values count from the end; anything outside `[-n, n)` raises
`IndexError`. -/
def pyIloc (n : Nat) (i : Int) : Except PyError Nat :=
  if 0 ≤ i then
    if i < (n : Int) then .ok i.toNat else .error .indexError
  else
    if 0 ≤ (n : Int) + i then .ok ((n : Int) + i).toNat else .error .indexError

/-- `TaskDataset.__getitem__`: `(self._data.iloc[index]['question'],
self._data.iloc[index]['target'])`.  Row selection can raise `IndexError`;
label selection can raise `KeyError` (never on a genuine clean table). -/
def TaskDataset.getitem (d : TaskDataset) (i : Int) : Except PyError (Cell × Cell) :=
  match pyIloc d.data.rows.length i with
  | .error e => .error e
  | .ok k =>
    match d.data.rows[k]? with
    | none => .error .indexError
    | some r =>
      match colIdx d.data.columns colQuestion, colIdx d.data.columns colTarget with
      | some jq, some jt =>
        match r[jq]?, r[jt]? with
        | some q, some tg => .ok (q, tg)
        | _, _ => .error .keyError
      | _, _ => .error .keyError

/-- `LLMPipeline.infer_sample`.  The external chain
`tokenizer(...)` / `model.generate(...)` / `tokenizer.batch_decode(...)` is a
black box, modelled by the parameter `decode` mapping the question to the
list of decoded strings (or to an exception).  The source indexes `[0]` into
that list — an `IndexError` when it is empty — and returns the first decoded
string with its first `len(sample[0]) + 1` characters sliced off.  No
exception is caught, and `None` is never returned. -/
def infer_sample (decode : Str → Except PyError (List Str)) (sample : Str × Str) :
    Except PyError (Option Str) :=
  match decode sample.1 with
  | .error e => .error e
  | .ok [] => .error .indexError
  | .ok (d :: _) => .ok (some (d.drop (sample.1.length + 1)))

/-- State of a `RawDataImporter`: the dataset name `_hf_name` and the stored
`_raw_data`, which is `none` while it is not a `DataFrame` (in particular
before `obtain` ran). -/
structure RawDataImporter where
  hf_name : String
  raw_data_stored : Option Table
  deriving Repr, DecidableEq

/-- The `raw_data` property: raises `TypeError` when the stored `_raw_data`
is not a `DataFrame`, and returns it unchanged otherwise. -/
def RawDataImporter.raw_data (s : RawDataImporter) : Except PyError Table :=
  match s.raw_data_stored with
  | none => .error .typeError
  | some t => .ok t

/-- `RawDataImporter.obtain`: the external
`load_dataset(hf_name, split='train').to_pandas()` is a black box modelled by
`fetch`; `Except.error` is a failing download, `.ok none` a result that is
not a `DataFrame` (making the `isinstance` check raise `TypeError`), and
`.ok (some t)` a successful conversion stored into `_raw_data`. -/
def RawDataImporter.obtain (fetch : String → Except PyError (Option Table))
    (s : RawDataImporter) : Except PyError RawDataImporter :=
  match fetch s.hf_name with
  | .error e => .error e
  | .ok none => .error .typeError
  | .ok (some t) => .ok { s with raw_data_stored := some t }

/- Specification-side readings of the statistics, written from the claims'
words rather than from the pandas call chain; the theorems below relate them
to the source-side definitions. -/

/-- A row containing no empty-string and no missing cell. -/
def noEmptyCells (r : Row) : Bool := r.all (fun c => !cellEmptyB c)

/-- The instruction-column values among the rows that contain no empty cell. -/
def instructionValues (t : Table) : List Str :=
  match colIdx t.columns colInstruction with
  | none => []
  | some j => instrCells j (t.rows.filter noEmptyCells)

/-- The instruction-column string lengths among the rows with no empty cell. -/
def instructionLengths (t : Table) : List Nat :=
  (instructionValues t).map List.length

/-- Row `i` is a duplicated row: it equals one of the rows before it. -/
def dupAt (rows : List Row) (i : Nat) : Bool :=
  match rows[i]? with
  | none => false
  | some r => decide (r ∈ rows.take i)

/-- The number of duplicated rows: rows that repeat an earlier row. -/
def dupCountSpec (rows : List Row) : Nat :=
  (List.range rows.length).countP (dupAt rows)

/- Concrete instances used in the example theorems below. -/

def colExtra : String := "extra"

/-- Scenario A: three rows, one duplicated row, one row with an empty
instruction cell. -/
def tableA : Table :=
  { columns := [colInstruction, colInput, colOutput, colText]
  , rows := [ [some ['a','b','c'], some ['i'], some ['o'], some ['t']]
            , [some ['a','b','c'], some ['i'], some ['o'], some ['t']]
            , [some [], some ['i'], some ['o'], some ['t']] ] }

/-- A non-empty raw table whose only row has an empty instruction cell. -/
def tableAllEmpty : Table := { columns := [colInstruction], rows := [[some []]] }

/-- Scenario B: a raw table with exactly the four standard columns. -/
def tableB : Table :=
  { columns := [colInstruction, colInput, colOutput, colText]
  , rows := [[some ['q'], some ['i'], some ['o'], some ['t']]] }

/-- A raw table carrying a fifth column beyond the standard four. -/
def tableExtra : Table :=
  { columns := [colInstruction, colInput, colOutput, colText, colExtra]
  , rows := [[some ['a'], some ['b'], some ['c'], some ['d'], some ['e']]] }

/-- Preprocessor state holding `tableExtra`, before any `transform` call. -/
def preExtra : RawDataPreprocessor := { raw_data := tableExtra, data := none }

/-- Preprocessor state holding `tableB`, before any `transform` call. -/
def preB : RawDataPreprocessor := { raw_data := tableB, data := none }

/-- Scenario C: a dataset adapter over a five-row clean table. -/
def dataset5 : TaskDataset :=
  { data := { columns := [colQuestion, colTarget]
            , rows := [ [some ['q','0'], some ['t','0']]
                      , [some ['q','1'], some ['t','1']]
                      , [some ['q','2'], some ['t','2']]
                      , [some ['q','3'], some ['t','3']]
                      , [some ['q','4'], some ['t','4']] ] } }

/-- A small clean dataset adapter reused by the inference examples. -/
def sampleHi : Str × Str := (['h','i'], [])

/-- A decoding chain that echoes the question, one separator, then new text. -/
def decodeEcho : Str → Except PyError (List Str) :=
  fun _ => .ok [['a','b',',','c','d']]

/-- A decoding chain whose continuation repeats the question after the
separator character. -/
def decodeRepeat : Str → Except PyError (List Str) :=
  fun _ => .ok [['a','b',',','a','b','X']]

/-- A generation/decoding step that raises an exception. -/
def decodeFail : Str → Except PyError (List Str) := fun _ => .error .runtimeError

/-- A decoding step that returns no output at all. -/
def decodeEmpty : Str → Except PyError (List Str) := fun _ => .ok []

/-- An importer before any successful `obtain`. -/
def importer0 : RawDataImporter := { hf_name := "hub", raw_data_stored := none }

/-- The importer after a successful `obtain` that stored `tableB`. -/
def importer1 : RawDataImporter := { hf_name := "hub", raw_data_stored := some tableB }

/-- A hub fetch that succeeds and converts to the table `tableB`. -/
def fetchOk : String → Except PyError (Option Table) := fun _ => .ok (some tableB)

/- Helper lemmas about cells, column lookup and the length-keyed extrema. -/

theorem replaceEmptyNA_isNone (c : Cell) :
    (replaceEmptyNA c).isNone = cellEmptyB c := by
  cases c with
  | none => rfl
  | some s =>
    by_cases h : s.isEmpty <;> simp [replaceEmptyNA, cellEmptyB, h]

theorem replaceEmptyNA_of_notEmpty {c : Cell} (h : cellEmptyB c = false) :
    replaceEmptyNA c = c := by
  cases c with
  | none => simp [cellEmptyB] at h
  | some s =>
    cases s with
    | nil => simp [cellEmptyB] at h
    | cons a as => rfl

theorem any_map_replace (r : Row) :
    (r.map replaceEmptyNA).any Option.isNone = r.any cellEmptyB := by
  induction r with
  | nil => rfl
  | cons c cs ih => simp [List.any_cons, ih, replaceEmptyNA_isNone]

theorem noEmptyCells_eq_not_any (r : Row) :
    noEmptyCells r = !r.any cellEmptyB := by
  induction r with
  | nil => rfl
  | cons c cs ih =>
    simp [noEmptyCells, List.all_cons, List.any_cons, Bool.not_or] at *
    rw [ih]

theorem colIdx_isSome_of_mem {cols : List String} {name : String} (h : name ∈ cols) :
    ∃ j, colIdx cols name = some j := by
  induction cols with
  | nil => simp at h
  | cons c cs ih =>
    rw [colIdx]
    by_cases hc : c = name
    · exact ⟨0, by simp [hc]⟩
    · have hmem : name ∈ cs := by
        rcases List.mem_cons.mp h with h1 | h1
        · exact absurd h1.symm hc
        · exact h1
      obtain ⟨j, hj⟩ := ih hmem
      exact ⟨j + 1, by simp [hc, hj]⟩

theorem colIdx_lt {cols : List String} {name : String} {j : Nat}
    (h : colIdx cols name = some j) : j < cols.length := by
  induction cols generalizing j with
  | nil => simp [colIdx] at h
  | cons c cs ih =>
    rw [colIdx] at h
    by_cases hc : c = name
    · rw [if_pos hc] at h
      have hj : j = 0 := (Option.some_inj.mp h).symm
      subst hj
      simp [List.length_cons]
    · rw [if_neg hc] at h
      obtain ⟨j', hj', rfl⟩ := Option.map_eq_some'.mp h
      have := ih hj'
      simp only [List.length_cons]
      omega

theorem minByLen_cons_none {x : Str} {xs : List Str} (h : minByLen xs = none) :
    minByLen (x :: xs) = some x := by
  rw [minByLen, h]

theorem minByLen_cons_some {x m : Str} {xs : List Str} (h : minByLen xs = some m) :
    minByLen (x :: xs) = if m.length < x.length then some m else some x := by
  rw [minByLen, h]

theorem maxByLen_cons_none {x : Str} {xs : List Str} (h : maxByLen xs = none) :
    maxByLen (x :: xs) = some x := by
  rw [maxByLen, h]

theorem maxByLen_cons_some {x m : Str} {xs : List Str} (h : maxByLen xs = some m) :
    maxByLen (x :: xs) = if x.length < m.length then some m else some x := by
  rw [maxByLen, h]

theorem minByLen_eq_none {xs : List Str} (h : minByLen xs = none) : xs = [] := by
  cases xs with
  | nil => rfl
  | cons x xs =>
    exfalso
    cases hm : minByLen xs with
    | none => rw [minByLen_cons_none hm] at h; exact Option.noConfusion h
    | some m =>
      rw [minByLen_cons_some hm] at h
      by_cases hlt : m.length < x.length
      · rw [if_pos hlt] at h; exact Option.noConfusion h
      · rw [if_neg hlt] at h; exact Option.noConfusion h

theorem maxByLen_eq_none {xs : List Str} (h : maxByLen xs = none) : xs = [] := by
  cases xs with
  | nil => rfl
  | cons x xs =>
    exfalso
    cases hm : maxByLen xs with
    | none => rw [maxByLen_cons_none hm] at h; exact Option.noConfusion h
    | some m =>
      rw [maxByLen_cons_some hm] at h
      by_cases hlt : x.length < m.length
      · rw [if_pos hlt] at h; exact Option.noConfusion h
      · rw [if_neg hlt] at h; exact Option.noConfusion h

theorem minByLen_isSome {xs : List Str} (h : xs ≠ []) :
    ∃ m, minByLen xs = some m := by
  cases hm : minByLen xs with
  | none => exact absurd (minByLen_eq_none hm) h
  | some m => exact ⟨m, rfl⟩

theorem maxByLen_isSome {xs : List Str} (h : xs ≠ []) :
    ∃ m, maxByLen xs = some m := by
  cases hm : maxByLen xs with
  | none => exact absurd (maxByLen_eq_none hm) h
  | some m => exact ⟨m, rfl⟩

theorem minByLen_mem : ∀ {xs : List Str} {m : Str}, minByLen xs = some m → m ∈ xs := by
  intro xs
  induction xs with
  | nil => intro m h; simp [minByLen] at h
  | cons x xs ih =>
    intro m h
    cases hm : minByLen xs with
    | none =>
      rw [minByLen_cons_none hm] at h
      exact (Option.some_inj.mp h) ▸ List.mem_cons_self x xs
    | some m' =>
      rw [minByLen_cons_some hm] at h
      by_cases hlt : m'.length < x.length
      · rw [if_pos hlt] at h
        exact List.mem_cons_of_mem x ((Option.some_inj.mp h) ▸ ih hm)
      · rw [if_neg hlt] at h
        exact (Option.some_inj.mp h) ▸ List.mem_cons_self x xs

theorem minByLen_le : ∀ {xs : List Str} {m : Str}, minByLen xs = some m →
    ∀ x ∈ xs, m.length ≤ x.length := by
  intro xs
  induction xs with
  | nil => intro m h; simp [minByLen] at h
  | cons x xs ih =>
    intro m h y hy
    cases hm : minByLen xs with
    | none =>
      rw [minByLen_cons_none hm] at h
      have hx : xs = [] := minByLen_eq_none hm
      subst hx
      rcases List.mem_cons.mp hy with hxy | h1
      · subst hxy
        exact le_of_eq (congrArg List.length (Option.some_inj.mp h)).symm
      · simp at h1
    | some m' =>
      rw [minByLen_cons_some hm] at h
      rcases List.mem_cons.mp hy with hxy | h1
      · subst hxy
        by_cases hlt : m'.length < y.length
        · rw [if_pos hlt] at h
          rw [← Option.some_inj.mp h]
          exact le_of_lt hlt
        · rw [if_neg hlt] at h
          exact le_of_eq (congrArg List.length (Option.some_inj.mp h)).symm
      · by_cases hlt : m'.length < x.length
        · rw [if_pos hlt] at h
          rw [← Option.some_inj.mp h]
          exact ih hm y h1
        · rw [if_neg hlt] at h
          rw [← Option.some_inj.mp h]
          exact le_trans (le_of_not_lt hlt) (ih hm y h1)

theorem maxByLen_mem : ∀ {xs : List Str} {m : Str}, maxByLen xs = some m → m ∈ xs := by
  intro xs
  induction xs with
  | nil => intro m h; simp [maxByLen] at h
  | cons x xs ih =>
    intro m h
    cases hm : maxByLen xs with
    | none =>
      rw [maxByLen_cons_none hm] at h
      exact (Option.some_inj.mp h) ▸ List.mem_cons_self x xs
    | some m' =>
      rw [maxByLen_cons_some hm] at h
      by_cases hlt : x.length < m'.length
      · rw [if_pos hlt] at h
        exact List.mem_cons_of_mem x ((Option.some_inj.mp h) ▸ ih hm)
      · rw [if_neg hlt] at h
        exact (Option.some_inj.mp h) ▸ List.mem_cons_self x xs

theorem maxByLen_ge : ∀ {xs : List Str} {m : Str}, maxByLen xs = some m →
    ∀ x ∈ xs, x.length ≤ m.length := by
  intro xs
  induction xs with
  | nil => intro m h; simp [maxByLen] at h
  | cons x xs ih =>
    intro m h y hy
    cases hm : maxByLen xs with
    | none =>
      rw [maxByLen_cons_none hm] at h
      have hx : xs = [] := maxByLen_eq_none hm
      subst hx
      rcases List.mem_cons.mp hy with hxy | h1
      · subst hxy
        exact le_of_eq (congrArg List.length (Option.some_inj.mp h))
      · simp at h1
    | some m' =>
      rw [maxByLen_cons_some hm] at h
      rcases List.mem_cons.mp hy with hxy | h1
      · subst hxy
        by_cases hlt : y.length < m'.length
        · rw [if_pos hlt] at h
          rw [← Option.some_inj.mp h]
          exact le_of_lt hlt
        · rw [if_neg hlt] at h
          exact le_of_eq (congrArg List.length (Option.some_inj.mp h))
      · by_cases hlt : x.length < m'.length
        · rw [if_pos hlt] at h
          rw [← Option.some_inj.mp h]
          exact ih hm y h1
        · rw [if_neg hlt] at h
          rw [← Option.some_inj.mp h]
          exact le_trans (ih hm y h1) (le_of_not_lt hlt)

/- Bridging the `replace`/`dropna` call chain to the direct row filter. -/

theorem bind_get_replace {r : Row} (h : r.any cellEmptyB = false) (j : Nat) :
    ((r.map replaceEmptyNA)[j]?.bind id) = (r[j]?.bind id) := by
  rw [List.getElem?_map]
  cases hr : r[j]? with
  | none => rfl
  | some c =>
    have hmem : c ∈ r := List.getElem?_mem hr
    have hc : cellEmptyB c = false := by
      by_contra hcc
      have : r.any cellEmptyB = true :=
        List.any_eq_true.mpr ⟨c, hmem, by simpa using hcc⟩
      rw [this] at h
      exact Bool.noConfusion h
    simp [replaceEmptyNA_of_notEmpty hc]

theorem instrCells_replace (j : Nat) (rows : List Row) :
    instrCells j ((rows.map (fun r => r.map replaceEmptyNA)).filter (fun r => !r.any Option.isNone))
      = instrCells j (rows.filter noEmptyCells) := by
  induction rows with
  | nil => rfl
  | cons r rs ih =>
    simp only [List.map_cons, List.filter_cons]
    rw [any_map_replace r, noEmptyCells_eq_not_any r]
    cases hr : r.any cellEmptyB with
    | true => simpa using ih
    | false =>
      simp only [Bool.not_false, if_pos]
      unfold instrCells
      rw [List.filterMap_cons, List.filterMap_cons, bind_get_replace hr j]
      cases (r[j]?.bind id) with
      | none => exact ih
      | some v =>
        unfold instrCells at ih
        rw [ih]

theorem instrCells_emptyRowsFree (t : Table) (j : Nat) :
    instrCells j (emptyRowsFree t) = instrCells j (t.rows.filter noEmptyCells) := by
  unfold emptyRowsFree
  exact instrCells_replace j t.rows

/- The duplicate count of the fold equals the positional reading. -/

theorem countP_funext {α : Type} (p q : α → Bool) (l : List α)
    (h : ∀ a, p a = q a) : l.countP p = l.countP q := by
  have : p = q := funext h
  rw [this]

theorem duplicatedAux_eq (rows : List Row) : ∀ seen : List Row,
    duplicatedAux seen rows =
      (List.range rows.length).countP (fun i =>
        match rows[i]? with
        | none => false
        | some r => decide (r ∈ seen ∨ r ∈ rows.take i)) := by
  induction rows with
  | nil => intro seen; rfl
  | cons r rs ih =>
    intro seen
    rw [duplicatedAux, List.length_cons, List.range_succ_eq_map,
        List.countP_cons, List.countP_map, ih (r :: seen)]
    have hzero : (match (r :: rs)[0]? with
        | none => false
        | some x => decide (x ∈ seen ∨ x ∈ (r :: rs).take 0))
          = decide (r ∈ seen) := by
      simp [List.getElem?_cons_zero, List.take_zero]
    have hsucc : ∀ i : Nat,
        ((fun i =>
          match (r :: rs)[i]? with
          | none => false
          | some x => decide (x ∈ seen ∨ x ∈ (r :: rs).take i)) ∘ Nat.succ) i
          = (fun i =>
          match rs[i]? with
          | none => false
          | some x => decide (x ∈ (r :: seen) ∨ x ∈ rs.take i)) i := by
      intro i
      simp only [Function.comp_apply, List.getElem?_cons_succ, List.take_succ_cons]
      cases hx : rs[i]? with
      | none => rfl
      | some x =>
        simp only [List.mem_cons]
        apply decide_eq_decide.mpr
        tauto
    rw [countP_funext _ _ _ hsucc, hzero]
    by_cases hseen : r ∈ seen
    · simp [hseen, Nat.add_comm]
    · simp [hseen]

theorem duplicatedSum_eq_spec (t : Table) : duplicatedSum t = dupCountSpec t.rows := by
  unfold duplicatedSum dupCountSpec
  rw [duplicatedAux_eq]
  apply List.countP_congr
  intro i _
  unfold dupAt
  cases hx : t.rows[i]? <;> simp [hx]

/- The missing-cell total equals the count over all cells. -/

theorem countP_replace_row (r : Row) :
    (r.map replaceEmptyNA).countP Option.isNone = r.countP cellEmptyB := by
  rw [List.countP_map]
  apply List.countP_congr
  intro c _
  simp [Function.comp_apply, replaceEmptyNA_isNone]

theorem isnaSumSum_eq_spec (t : Table) :
    isnaSumSum t = t.rows.flatten.countP cellEmptyB := by
  unfold isnaSumSum
  induction t.rows with
  | nil => rfl
  | cons r rs ih =>
    rw [List.map_cons, List.sum_cons, List.flatten_cons, List.countP_append,
        countP_replace_row, ih]

/- Column bookkeeping of `transform`. -/

theorem renameInstrOutput_mem_iff {cols : List String} {name : String}
    (h1 : name ≠ colQuestion) (h2 : name ≠ colTarget)
    (h3 : name ≠ colInstruction) (h4 : name ≠ colOutput) :
    name ∈ cols.map renameInstrOutput ↔ name ∈ cols := by
  constructor
  · intro hm
    obtain ⟨c, hc, hren⟩ := List.mem_map.mp hm
    unfold renameInstrOutput at hren
    by_cases hci : c = colInstruction
    · rw [if_pos hci] at hren
      exact absurd hren.symm h1
    · rw [if_neg hci] at hren
      by_cases hco : c = colOutput
      · rw [if_pos hco] at hren
        exact absurd hren.symm h2
      · rw [if_neg hco] at hren
        exact hren ▸ hc
  · intro hm
    refine List.mem_map.mpr ⟨name, hm, ?_⟩
    unfold renameInstrOutput
    rw [if_neg h3, if_neg h4]

theorem transform_ok_of_input_text {t : Table}
    (hin : colInput ∈ t.columns) (htx : colText ∈ t.columns) :
    transform t =
      .ok { columns := (t.columns.map renameInstrOutput).filter (fun c => decide (c ∉ dropNames))
          , rows := t.rows.map (dropCells (t.columns.map renameInstrOutput) dropNames) } := by
  unfold transform dropColumns
  rw [if_pos]
  intro n hn
  have hq : colInput ≠ colQuestion := by decide
  rcases List.mem_cons.mp hn with h | h
  · subst h
    exact (renameInstrOutput_mem_iff (by decide) (by decide) (by decide) (by decide)).mpr hin
  · rcases List.mem_cons.mp h with h' | h'
    · subst h'
      exact (renameInstrOutput_mem_iff (by decide) (by decide) (by decide) (by decide)).mpr htx
    · simp [dropNames] at h'

theorem transform_columns_exact {t : Table}
    (hsub : ∀ c ∈ t.columns, c ∈ [colInstruction, colInput, colOutput, colText])
    (hinstr : colInstruction ∈ t.columns) (hout : colOutput ∈ t.columns)
    (hin : colInput ∈ t.columns) (htx : colText ∈ t.columns) :
    ∃ u, transform t = .ok u ∧ colQuestion ∈ u.columns ∧ colTarget ∈ u.columns ∧
      ∀ c ∈ u.columns, c = colQuestion ∨ c = colTarget := by
  refine ⟨_, transform_ok_of_input_text hin htx, ?_, ?_, ?_⟩
  · refine List.mem_filter.mpr ⟨?_, by decide⟩
    exact List.mem_map.mpr ⟨colInstruction, hinstr, by decide⟩
  · refine List.mem_filter.mpr ⟨?_, by decide⟩
    exact List.mem_map.mpr ⟨colOutput, hout, by decide⟩
  · intro c hc
    obtain ⟨hcm, hcd⟩ := List.mem_filter.mp hc
    obtain ⟨c0, hc0, hren⟩ := List.mem_map.mp hcm
    have : c0 ∈ [colInstruction, colInput, colOutput, colText] := hsub c0 hc0
    have hnd : c ∉ dropNames := by simpa using hcd
    rcases List.mem_cons.mp this with h0 | h0
    · left
      rw [← hren, h0]
      decide
    · rcases List.mem_cons.mp h0 with h0 | h0
      · exfalso
        apply hnd
        rw [← hren, h0]
        decide
      · rcases List.mem_cons.mp h0 with h0 | h0
        · right
          rw [← hren, h0]
          decide
        · rcases List.mem_cons.mp h0 with h0 | h0
          · exfalso
            apply hnd
            rw [← hren, h0]
            decide
          · simp at h0

/-- C10: `transform()` fails with a key error exactly when the raw table lacks
a column named `input` or a column named `text`; when both are present the
drop succeeds, so the renames of `instruction` and `output` impose no
presence requirement of their own. -/
theorem claim_C10_transform_requires_input_text (t : Table) :
    (transform t = .error .keyError ↔ (colInput ∉ t.columns ∨ colText ∉ t.columns)) ∧
    (colInput ∈ t.columns → colText ∈ t.columns → ∃ u, transform t = .ok u) := by
  constructor
  · constructor
    · intro herr
      by_contra hcon
      push_neg at hcon
      obtain ⟨hin, htx⟩ := hcon
      rw [transform_ok_of_input_text hin htx] at herr
      exact Except.noConfusion herr
    · intro h
      unfold transform dropColumns
      rw [if_neg]
      intro hall
      rcases h with h | h
      · exact h ((renameInstrOutput_mem_iff (by decide) (by decide) (by decide)
          (by decide)).mp (hall colInput (by decide)))
      · exact h ((renameInstrOutput_mem_iff (by decide) (by decide) (by decide)
          (by decide)).mp (hall colText (by decide)))
  · intro hin htx
    exact ⟨_, transform_ok_of_input_text hin htx⟩

/-- Witness for C10 at concrete tables: a table without `input`/`text` makes
`transform` raise the key error, and a table with all four standard columns
makes it succeed even though nothing else is required. -/
theorem claim_C10_witness :
    transform tableAllEmpty = .error .keyError ∧ (∃ u, transform tableB = .ok u) :=
  ⟨((claim_C10_transform_requires_input_text tableAllEmpty).1).mpr (Or.inl (by decide)),
   (claim_C10_transform_requires_input_text tableB).2 (by decide) (by decide)⟩

/-- C7: calling the `raw_data` accessor while the stored raw data is not a
table raises `TypeError`; after a successful `obtain()` the accessor returns
the stored raw table unchanged. -/
theorem claim_C7_raw_data_access (s0 s s' : RawDataImporter)
    (fetch : String → Except PyError (Option Table))
    (h0 : s0.raw_data_stored = none)
    (h : s.obtain fetch = .ok s') :
    s0.raw_data = .error .typeError ∧
    ∃ t, s'.raw_data_stored = some t ∧ s'.raw_data = .ok t := by
  constructor
  · unfold RawDataImporter.raw_data
    rw [h0]
  · unfold RawDataImporter.obtain at h
    split at h
    · exact Except.noConfusion h
    · exact Except.noConfusion h
    · injection h with h2
      subst h2
      exact ⟨_, rfl, rfl⟩

/-- Witness for C7: the fresh importer raises the type error, and after a
successful `obtain` storing `tableB` the accessor returns exactly `tableB`. -/
theorem claim_C7_witness :
    (importer0.raw_data_stored = none ∧ importer0.obtain fetchOk = .ok importer1) ∧
    (importer0.raw_data = .error .typeError ∧
      ∃ t, importer1.raw_data_stored = some t ∧ importer1.raw_data = .ok t) :=
  ⟨⟨rfl, rfl⟩, claim_C7_raw_data_access importer0 importer0 importer1 fetchOk rfl rfl⟩

/-- C5 (amended): retrieval raises `IndexError` for every integer index `i`
with `i < -len` or `i ≥ len`; Python-style negative indices in `[-len, 0)`
are accepted by `iloc` and count from the end, so the failure region is not
the complement of `[0, len)`. -/
theorem claim_C5_out_of_range (d : TaskDataset) (i : Int)
    (h : i < -(d.len : Int) ∨ (d.len : Int) ≤ i) :
    d.getitem i = .error .indexError := by
  rw [show d.len = d.data.rows.length from rfl] at h
  have hpy : pyIloc d.data.rows.length i = .error .indexError := by
    unfold pyIloc
    by_cases h0 : 0 ≤ i
    · rw [if_pos h0, if_neg]
      omega
    · rw [if_neg h0, if_neg]
      omega
  unfold TaskDataset.getitem
  rw [hpy]

/-- Witness for C5 over the five-row adapter of scenario C: length is 5 and
index 5 fails with the index error. -/
theorem claim_C5_witness :
    ((dataset5.len : Int) ≤ 5 ∧ dataset5.len = 5) ∧
    dataset5.getitem 5 = .error .indexError :=
  ⟨⟨by decide, by decide⟩, claim_C5_out_of_range dataset5 5 (Or.inr (by decide))⟩

/-- Counterexample to C5 as stated: index `-1` violates `0 ≤ index` yet
retrieval over the five-row table succeeds, returning the last row's pair. -/
theorem claim_C5_counterexample :
    dataset5.len = 5 ∧ ¬ ((0 : Int) ≤ -1) ∧
    dataset5.getitem (-1) = .ok (some ['q','4'], some ['t','4']) := by
  decide

/-- C6 (amended): when the generation/decoding chain raises, `infer_sample`
propagates the exception unchanged instead of returning a null result, and
no run of `infer_sample` ever returns `None`; the declared null result is
never produced. -/
theorem claim_C6_failure_propagates (decode : Str → Except PyError (List Str))
    (sample : Str × Str) (e : PyError) (h : decode sample.1 = .error e) :
    infer_sample decode sample = .error e ∧
    ∀ (dec : Str → Except PyError (List Str)) (s : Str × Str),
      infer_sample dec s ≠ Except.ok none := by
  constructor
  · unfold infer_sample
    rw [h]
  · intro dec s
    unfold infer_sample
    cases dec s.1 with
    | error e' => exact fun hc => Except.noConfusion hc
    | ok l =>
      cases l with
      | nil => exact fun hc => Except.noConfusion hc
      | cons a as =>
        intro hc
        injection hc with h2
        exact Option.noConfusion h2

/-- Witness for C6 at a concrete failing decoder. -/
theorem claim_C6_witness :
    (decodeFail sampleHi.1 = .error .runtimeError) ∧
    (infer_sample decodeFail sampleHi = .error .runtimeError ∧
      ∀ (dec : Str → Except PyError (List Str)) (s : Str × Str),
        infer_sample dec s ≠ Except.ok none) :=
  ⟨rfl, claim_C6_failure_propagates decodeFail sampleHi .runtimeError rfl⟩

/-- Counterexample to C6 as stated: a failing generation step and an empty
decoding result both make `infer_sample` raise (the caller gets an exception,
not a null result). -/
theorem claim_C6_counterexample :
    infer_sample decodeFail sampleHi = .error .runtimeError ∧
    infer_sample decodeEmpty sampleHi = .error .indexError ∧
    infer_sample decodeFail sampleHi ≠ .ok none := by
  refine ⟨rfl, rfl, ?_⟩
  decide

/-- C3 (amended): when the decoded output echoes the question verbatim
followed by one separator character, `infer_sample` returns exactly the text
after the separator (the first `len(question) + 1` characters are dropped);
the result starts with the question only when the continuation itself does,
so under the added no-repetition hypothesis the returned string does not
have the question as a leading segment. -/
theorem claim_C3_strip_echo (decode : Str → Except PyError (List Str))
    (sample : Str × Str) (d rest : Str) (ds : List Str) (c : Char)
    (hdec : decode sample.1 = .ok (d :: ds))
    (hecho : d = sample.1 ++ c :: rest)
    (hnorep : rest.take sample.1.length ≠ sample.1) :
    infer_sample decode sample = .ok (some rest) ∧
      rest.take sample.1.length ≠ sample.1 := by
  refine ⟨?_, hnorep⟩
  subst hecho
  unfold infer_sample
  rw [hdec]
  show Except.ok (some ((sample.1 ++ c :: rest).drop (sample.1.length + 1)))
      = Except.ok (some rest)
  have hsplit : sample.1 ++ c :: rest = (sample.1 ++ [c]) ++ rest := by simp
  rw [hsplit, List.drop_left' (by simp)]

/-- Witness for C3 at a concrete echoing decoder. -/
theorem claim_C3_witness :
    (decodeEcho ['a','b'] = .ok [['a','b',',','c','d']] ∧
      (['a','b',',','c','d'] : Str) = ['a','b'] ++ [','] ++ ['c','d'] ∧
      (['c','d'] : Str).take 2 ≠ ['a','b']) ∧
    (infer_sample decodeEcho (['a','b'], []) = .ok (some ['c','d']) ∧
      (['c','d'] : Str).take 2 ≠ ['a','b']) :=
  ⟨⟨by decide, by decide, by decide⟩,
   claim_C3_strip_echo decodeEcho (['a','b'], []) ['a','b',',','c','d'] ['c','d'] [] ','
     (by decide) (by decide) (by decide)⟩

/-- Counterexample to C3 as stated: the echo assumption holds, yet the
continuation repeats the question, so the returned string still has the
question as a leading segment. -/
theorem claim_C3_counterexample :
    infer_sample decodeRepeat (['a','b'], []) = .ok (some ['a','b','X']) ∧
    (['a','b','X'] : Str).take 2 = ['a','b'] ∧
    decodeRepeat ['a','b'] = .ok [['a','b',',','a','b','X']] := by
  decide

/-- C2 (amended): for a raw table whose columns all come from the standard
four `[instruction, input, output, text]` and that contains each of them,
`transform()` succeeds and the stored clean table's column set is exactly
`{question, target}` — the instruction and output columns are renamed and
the input and text columns dropped.  (A raw table with additional columns
keeps them, so the column-set claim needs this restriction.) -/
theorem claim_C2_transform_columns (t : Table)
    (hsub : ∀ c ∈ t.columns, c ∈ [colInstruction, colInput, colOutput, colText])
    (hinstr : colInstruction ∈ t.columns) (hout : colOutput ∈ t.columns)
    (hin : colInput ∈ t.columns) (htx : colText ∈ t.columns) :
    ∃ u, transform t = .ok u ∧ colQuestion ∈ u.columns ∧ colTarget ∈ u.columns ∧
      ∀ c ∈ u.columns, c = colQuestion ∨ c = colTarget :=
  transform_columns_exact hsub hinstr hout hin htx

/-- Witness for C2 at scenario B's table with the four standard columns. -/
theorem claim_C2_witness :
    ((∀ c ∈ tableB.columns, c ∈ [colInstruction, colInput, colOutput, colText]) ∧
      colInstruction ∈ tableB.columns ∧ colOutput ∈ tableB.columns ∧
      colInput ∈ tableB.columns ∧ colText ∈ tableB.columns) ∧
    (∃ u, transform tableB = .ok u ∧ colQuestion ∈ u.columns ∧ colTarget ∈ u.columns ∧
      ∀ c ∈ u.columns, c = colQuestion ∨ c = colTarget) :=
  ⟨⟨by decide, by decide, by decide, by decide, by decide⟩,
   claim_C2_transform_columns tableB (by decide) (by decide) (by decide)
     (by decide) (by decide)⟩

/-- Counterexample to C2 as stated: a raw table with a fifth column `extra`
transforms successfully, but the resulting column set is
`{question, target, extra}`, not exactly `{question, target}`. -/
theorem claim_C2_counterexample :
    (transform tableExtra).map Table.columns = .ok [colQuestion, colTarget, colExtra] ∧
    colExtra ∉ [colQuestion, colTarget] := by
  decide

/-- C8 (amended): `transform()` recomputes the clean table from the untouched
`_raw_data`, so a second call stores the very same state (idempotence); and
when the raw table's columns are exactly the standard four, the stored clean
table's column set is exactly `{question, target}` after one call or two. -/
theorem claim_C8_transform_idempotent (p p' : RawDataPreprocessor)
    (h : transformStep p = .ok p')
    (hsub : ∀ c ∈ p.raw_data.columns, c ∈ [colInstruction, colInput, colOutput, colText])
    (hinstr : colInstruction ∈ p.raw_data.columns) (hout : colOutput ∈ p.raw_data.columns)
    (hin : colInput ∈ p.raw_data.columns) (htx : colText ∈ p.raw_data.columns) :
    transformStep p' = .ok p' ∧
    ∃ u, p'.data = some u ∧ colQuestion ∈ u.columns ∧ colTarget ∈ u.columns ∧
      ∀ c ∈ u.columns, c = colQuestion ∨ c = colTarget := by
  obtain ⟨u, htr, hqm, htm, hall⟩ := transform_columns_exact hsub hinstr hout hin htx
  unfold transformStep at h
  rw [htr] at h
  injection h with h2
  subst h2
  constructor
  · unfold transformStep
    rw [htr]
  · exact ⟨u, rfl, hqm, htm, hall⟩

/-- Witness for C8 at scenario B's preprocessor. -/
theorem claim_C8_witness :
    (transformStep preB = .ok { preB with data := some (Table.mk [colQuestion, colTarget]
        [[some ['q'], some ['o']]]) } ∧
      (∀ c ∈ preB.raw_data.columns, c ∈ [colInstruction, colInput, colOutput, colText]) ∧
      colInstruction ∈ preB.raw_data.columns ∧ colOutput ∈ preB.raw_data.columns ∧
      colInput ∈ preB.raw_data.columns ∧ colText ∈ preB.raw_data.columns) ∧
    (transformStep { preB with data := some (Table.mk [colQuestion, colTarget]
        [[some ['q'], some ['o']]]) } = .ok { preB with data := some (Table.mk
        [colQuestion, colTarget] [[some ['q'], some ['o']]]) } ∧
      ∃ u, ({ preB with data := some (Table.mk [colQuestion, colTarget]
        [[some ['q'], some ['o']]]) } : RawDataPreprocessor).data = some u ∧
        colQuestion ∈ u.columns ∧ colTarget ∈ u.columns ∧
        ∀ c ∈ u.columns, c = colQuestion ∨ c = colTarget) :=
  ⟨⟨by decide, by decide, by decide, by decide, by decide, by decide⟩,
   claim_C8_transform_idempotent preB _ (by decide) (by decide) (by decide)
     (by decide) (by decide) (by decide)⟩

/-- Counterexample to C8 as stated: over the raw table with a fifth column,
one application and two applications of `transform` both succeed and agree,
but the stored column set is `{question, target, extra}`, never exactly
`{question, target}`. -/
theorem claim_C8_counterexample :
    (transformStep preExtra).map (fun p => p.data.map Table.columns)
      = .ok (some [colQuestion, colTarget, colExtra]) ∧
    ((transformStep preExtra).bind transformStep).map (fun p => p.data.map Table.columns)
      = .ok (some [colQuestion, colTarget, colExtra]) ∧
    colExtra ∉ [colQuestion, colTarget] := by
  decide

/-- C4: the adapter's length is the clean table's row count, and for every
integer index `i` with `0 ≤ i < len`, retrieval returns exactly the
(question, target) pair of row `i`. -/
theorem claim_C4_dataset_retrieval (d : TaskDataset) (i : Int)
    (hrect : d.data.rect = true)
    (hq : colQuestion ∈ d.data.columns) (ht : colTarget ∈ d.data.columns)
    (h0 : 0 ≤ i) (hi : i < (d.len : Int)) :
    d.len = d.data.rows.length ∧
    ∃ r q tg, d.data.rows[i.toNat]? = some r ∧
      (colIdx d.data.columns colQuestion).bind (fun j => r[j]?) = some q ∧
      (colIdx d.data.columns colTarget).bind (fun j => r[j]?) = some tg ∧
      d.getitem i = .ok (q, tg) := by
  refine ⟨rfl, ?_⟩
  rw [show d.len = d.data.rows.length from rfl] at hi
  have hitn : i.toNat < d.data.rows.length := by omega
  obtain ⟨jq, hjq⟩ := colIdx_isSome_of_mem hq
  obtain ⟨jt, hjt⟩ := colIdx_isSome_of_mem ht
  have hr : d.data.rows[i.toNat]? = some d.data.rows[i.toNat] :=
    List.getElem?_eq_getElem hitn
  set r := d.data.rows[i.toNat] with hrdef
  have hrlen : r.length = d.data.columns.length := by
    have hmem : r ∈ d.data.rows := List.getElem_mem hitn
    have := List.all_eq_true.mp hrect r hmem
    simpa using this
  have hjq_lt : jq < r.length := by
    rw [hrlen]
    exact colIdx_lt hjq
  have hjt_lt : jt < r.length := by
    rw [hrlen]
    exact colIdx_lt hjt
  obtain ⟨q, hq'⟩ : ∃ q, r[jq]? = some q := ⟨_, List.getElem?_eq_getElem hjq_lt⟩
  obtain ⟨tg, ht'⟩ : ∃ tg, r[jt]? = some tg := ⟨_, List.getElem?_eq_getElem hjt_lt⟩
  have hpy : pyIloc d.data.rows.length i = .ok i.toNat := by
    unfold pyIloc
    rw [if_pos h0, if_pos hi]
  refine ⟨r, q, tg, hr, ?_, ?_, ?_⟩
  · rw [hjq]
    exact hq'
  · rw [hjt]
    exact ht'
  · simp only [TaskDataset.getitem, hpy, hr, hjq, hjt, hq', ht']

/-- Witness for C4 over scenario C's five-row adapter at index 4. -/
theorem claim_C4_witness :
    (dataset5.data.rect = true ∧ colQuestion ∈ dataset5.data.columns ∧
      colTarget ∈ dataset5.data.columns ∧ (0 : Int) ≤ 4 ∧
      (4 : Int) < (dataset5.len : Int)) ∧
    (dataset5.len = dataset5.data.rows.length ∧
      ∃ r q tg, dataset5.data.rows[(4 : Int).toNat]? = some r ∧
        (colIdx dataset5.data.columns colQuestion).bind (fun j => r[j]?) = some q ∧
        (colIdx dataset5.data.columns colTarget).bind (fun j => r[j]?) = some tg ∧
        dataset5.getitem 4 = .ok (q, tg)) :=
  ⟨⟨by decide, by decide, by decide, by decide, by decide⟩,
   claim_C4_dataset_retrieval dataset5 4 (by decide) (by decide) (by decide)
     (by decide) (by decide)⟩

/-- C1 (amended): for every raw table that has an `instruction` column,
rectangular rows, and at least one row free of empty cells, `analyze()`
returns a report whose sample count is the row count, whose column count is
the column count, whose duplicate count is the number of rows repeating an
earlier row, whose empty count is the number of cells that are empty strings
or missing, and whose min/max sample lengths are the least and greatest
instruction-column string lengths among the rows with no empty cell.  (The
row free of empty cells is required: without it `analyze()` raises.) -/
theorem claim_C1_analyze_report (t : Table)
    (hrect : t.rect = true)
    (hcol : colInstruction ∈ t.columns)
    (hfree : ∃ r ∈ t.rows, noEmptyCells r = true) :
    ∃ rep, analyze t = .ok rep ∧
      rep.dataset_number_of_samples = t.rows.length ∧
      rep.dataset_columns = t.columns.length ∧
      rep.dataset_duplicates = dupCountSpec t.rows ∧
      rep.dataset_empty_rows = t.rows.flatten.countP cellEmptyB ∧
      rep.dataset_sample_min_len ∈ instructionLengths t ∧
      (∀ l ∈ instructionLengths t, rep.dataset_sample_min_len ≤ l) ∧
      rep.dataset_sample_max_len ∈ instructionLengths t ∧
      (∀ l ∈ instructionLengths t, l ≤ rep.dataset_sample_max_len) := by
  obtain ⟨j, hj⟩ := colIdx_isSome_of_mem hcol
  have hjlt : j < t.columns.length := colIdx_lt hj
  obtain ⟨r, hrmem, hrne⟩ := hfree
  have hrlen : r.length = t.columns.length := by
    have := List.all_eq_true.mp hrect r hrmem
    simpa using this
  have hjr : j < r.length := by
    rw [hrlen]
    exact hjlt
  obtain ⟨c, hc⟩ : ∃ c, r[j]? = some c := ⟨_, List.getElem?_eq_getElem hjr⟩
  have hcne : cellEmptyB c = false := by
    have hmem : c ∈ r := List.getElem?_mem hc
    have := List.all_eq_true.mp hrne c hmem
    simpa using this
  obtain ⟨v, hv⟩ : ∃ v, c = some v := by
    cases c with
    | none => simp [cellEmptyB] at hcne
    | some v => exact ⟨v, rfl⟩
  subst hv
  have hvmem : v ∈ instrCells j (t.rows.filter noEmptyCells) := by
    refine List.mem_filterMap.mpr ⟨r, List.mem_filter.mpr ⟨hrmem, hrne⟩, ?_⟩
    rw [hc]
    rfl
  have hne : instrCells j (t.rows.filter noEmptyCells) ≠ [] := by
    intro hnil
    rw [hnil] at hvmem
    simp at hvmem
  obtain ⟨mn, hmn⟩ := minByLen_isSome hne
  obtain ⟨mx, hmx⟩ := maxByLen_isSome hne
  have hbridge := instrCells_emptyRowsFree t j
  have hmn' : minByLen (instrCells j (emptyRowsFree t)) = some mn := by
    rw [hbridge]
    exact hmn
  have hmx' : maxByLen (instrCells j (emptyRowsFree t)) = some mx := by
    rw [hbridge]
    exact hmx
  have hlens : instructionLengths t
      = (instrCells j (t.rows.filter noEmptyCells)).map List.length := by
    unfold instructionLengths instructionValues
    rw [hj]
  refine ⟨{ dataset_number_of_samples := t.rows.length
            dataset_columns := t.columns.length
            dataset_duplicates := duplicatedSum t
            dataset_empty_rows := isnaSumSum t
            dataset_sample_min_len := mn.length
            dataset_sample_max_len := mx.length },
          ?_, rfl, rfl, duplicatedSum_eq_spec t, isnaSumSum_eq_spec t, ?_, ?_, ?_, ?_⟩
  · simp only [analyze, hj, hmn', hmx']
  · rw [hlens]
    exact List.mem_map.mpr ⟨mn, minByLen_mem hmn, rfl⟩
  · rw [hlens]
    intro l hl
    obtain ⟨x, hx, rfl⟩ := List.mem_map.mp hl
    exact minByLen_le hmn x hx
  · rw [hlens]
    exact List.mem_map.mpr ⟨mx, maxByLen_mem hmx, rfl⟩
  · rw [hlens]
    intro l hl
    obtain ⟨x, hx, rfl⟩ := List.mem_map.mp hl
    exact maxByLen_ge hmx x hx

/-- Witness for C1 at scenario A's table: three rows, four columns, one
duplicated row, one empty instruction cell. -/
theorem claim_C1_witness :
    (tableA.rect = true ∧ colInstruction ∈ tableA.columns ∧
      ∃ r ∈ tableA.rows, noEmptyCells r = true) ∧
    (∃ rep, analyze tableA = .ok rep ∧
      rep.dataset_number_of_samples = tableA.rows.length ∧
      rep.dataset_columns = tableA.columns.length ∧
      rep.dataset_duplicates = dupCountSpec tableA.rows ∧
      rep.dataset_empty_rows = tableA.rows.flatten.countP cellEmptyB ∧
      rep.dataset_sample_min_len ∈ instructionLengths tableA ∧
      (∀ l ∈ instructionLengths tableA, rep.dataset_sample_min_len ≤ l) ∧
      rep.dataset_sample_max_len ∈ instructionLengths tableA ∧
      (∀ l ∈ instructionLengths tableA, l ≤ rep.dataset_sample_max_len)) :=
  ⟨⟨by decide, by decide, by decide⟩,
   claim_C1_analyze_report tableA (by decide) (by decide) (by decide)⟩

/-- Counterexample to C1 as stated: a non-empty raw table whose only row has
an empty instruction cell makes `analyze()` raise the value error instead of
returning a report. -/
theorem claim_C1_counterexample :
    tableAllEmpty.rows.length = 1 ∧ analyze tableAllEmpty = .error .valueError := by
  decide

/-- C9: when every row of the raw table has at least one empty-string or
missing cell, the filtered table behind the min/max statistics is empty and
`analyze()` fails with an error instead of returning a report; hence
`analyze()` is total only when some row has no empty cell. -/
theorem claim_C9_analyze_all_empty (t : Table)
    (h : ∀ r ∈ t.rows, r.any cellEmptyB = true) :
    ∃ e, analyze t = .error e := by
  cases hj : colIdx t.columns colInstruction with
  | none =>
    refine ⟨.keyError, ?_⟩
    simp only [analyze, hj]
  | some j =>
    have hfree : emptyRowsFree t = [] := by
      unfold emptyRowsFree
      rw [List.filter_eq_nil_iff]
      intro r' hr'
      obtain ⟨r, hr, rfl⟩ := List.mem_map.mp hr'
      rw [any_map_replace r, h r hr]
      simp
    refine ⟨.valueError, ?_⟩
    simp only [analyze, hj, hfree, instrCells, List.filterMap_nil, minByLen, maxByLen]

/-- Witness for C9 at the one-row table whose single cell is empty. -/
theorem claim_C9_witness :
    (∀ r ∈ tableAllEmpty.rows, r.any cellEmptyB = true) ∧
    ∃ e, analyze tableAllEmpty = .error e :=
  ⟨by decide, claim_C9_analyze_all_empty tableAllEmpty (by decide)⟩
